import Mathlib

/-!
Shallow embedding of the Lcd_Driver repository (TivaC character-LCD driver).

Sources embedded here:
  * src/general_timer/general_timer.cpp  (GeneralTimer)
  * src/src/lcd_driver.cpp               (timing constants, comMaintain, displayWrite)
  * src/src/lcd_utils.cpp                (command builders, parallel bus transfers,
                                          addrCounterChange, ramDataWrite)
  * src/src/lcd_driver.hpp, src/src/lcd_include.hpp (constants)

Machine integers are modelled as Nat with explicit reductions modulo 2^w at the
points where C unsigned arithmetic can wrap.  The one floating-point member,
GeneralTimer::_tickToTimeScale (a double holding timerUnit / clockFrequency), is
modelled as an exact rational; conversions double -> uint64_t truncate toward
zero, which on the nonnegative values involved is the floor.
-/

/-- BIT(x) from tiva_utils/bit_manipulation.h (external helper header): 1 << x. -/
def BIT (x : ℕ) : ℕ := 1 <<< x

/-- bit_set(target, mask) from tiva_utils/bit_manipulation.h: target |= mask. -/
def bit_set (target mask : ℕ) : ℕ := target ||| mask

/-- bit_get(target, mask) from tiva_utils/bit_manipulation.h: target & mask. -/
def bit_get (target mask : ℕ) : ℕ := target &&& mask

/-! ## GeneralTimer (src/general_timer/general_timer.cpp) -/

/-- TIMER_LOAD from general_timer.cpp: the 64-bit load value of the
free-running concatenated wide timer (the counter counts up to this modulus). -/
def TIMER_LOAD : ℕ := 18446744073709551610

/-- GeneralTimer::tickToTime: (uint64_t)(tickCount * _tickToTimeScale).
The double scale is modelled as the exact rational it approximates; the
conversion to uint64_t truncates (floor on nonnegative values). -/
def tickToTime (scale : ℚ) (tickCount : ℕ) : ℕ :=
  (Int.floor ((tickCount : ℚ) * scale)).toNat

/-- GeneralTimer::timeToTick: (uint64_t)(timeAmount / _tickToTimeScale)
(asserts the scale is nonzero). -/
def timeToTick (scale : ℚ) (timeAmount : ℕ) : ℕ :=
  (Int.floor ((timeAmount : ℚ) / scale)).toNat

/-- GeneralTimer::stopTimer: reads the current counter value and returns the
elapsed time since the initial timestamp.  uint64_t subtraction is modelled
with the explicit + 2^64 then % 2^64 wrap. -/
def stopTimer (scale : ℚ) (intialTimeStamp currTimeStamp : ℕ) : ℕ :=
  if currTimeStamp > intialTimeStamp then
    tickToTime scale ((currTimeStamp + 2 ^ 64 - intialTimeStamp) % 2 ^ 64)
  else
    tickToTime scale
      (((TIMER_LOAD + 2 ^ 64 - intialTimeStamp) % 2 ^ 64 + currTimeStamp) % 2 ^ 64)

/-- C1: for an initial timestamp t and a current counter read c (both at most
the counter modulus TIMER_LOAD), stopTimer returns (c - t) converted by the
scale factor when c > t, and ((TIMER_LOAD - t) + c) converted the same way
when c <= t (exactly one wraparound assumed). -/
theorem stopTimer_elapsed (scale : ℚ) (t c : ℕ)
    (ht : t ≤ TIMER_LOAD) (hc : c ≤ TIMER_LOAD) :
    (c > t → stopTimer scale t c = tickToTime scale (c - t)) ∧
    (c ≤ t → stopTimer scale t c = tickToTime scale ((TIMER_LOAD - t) + c)) := by
  have hL : TIMER_LOAD = 18446744073709551610 := rfl
  constructor
  · intro hgt
    unfold stopTimer
    rw [if_pos hgt]
    congr 1
    omega
  · intro hle
    have hngt : ¬ c > t := by omega
    unfold stopTimer
    rw [if_neg hngt]
    congr 1
    omega

/-- Witness for C1 at scale 3, t = 5, c = 2 (wraparound branch). -/
theorem stopTimer_elapsed_witness :
    (5 : ℕ) ≤ TIMER_LOAD ∧ (2 : ℕ) ≤ TIMER_LOAD ∧
      stopTimer 3 5 2 = tickToTime 3 ((TIMER_LOAD - 5) + 2) :=
  ⟨by decide, by decide,
    (stopTimer_elapsed 3 5 2 (by decide) (by decide)).2 (by decide)⟩

/-- C9: the tick/time round trip loses at most one tick (plus the integer
truncation of the final conversion): the reconstructed duration never exceeds
d, and d is less than the reconstruction plus the time-value of one tick
(the scale s) plus one. -/
theorem tickToTime_timeToTick_roundtrip (s : ℚ) (d : ℕ)
    (hs : 0 < s) (hd : 0 < d) :
    tickToTime s (timeToTick s d) ≤ d ∧
    (d : ℚ) < (tickToTime s (timeToTick s d) : ℚ) + s + 1 := by
  have hdiv_nonneg : (0 : ℚ) ≤ (d : ℚ) / s := by positivity
  have hfl_nonneg : (0 : ℤ) ≤ Int.floor ((d : ℚ) / s) := Int.floor_nonneg.mpr hdiv_nonneg
  set tc : ℕ := timeToTick s d with htc
  have htc_cast : (tc : ℚ) = (Int.floor ((d : ℚ) / s) : ℤ) := by
    have h : (tc : ℤ) = Int.floor ((d : ℚ) / s) := by
      rw [htc]
      unfold timeToTick
      exact Int.toNat_of_nonneg hfl_nonneg
    exact_mod_cast h
  have htc_le : (tc : ℚ) ≤ (d : ℚ) / s := by
    rw [htc_cast]; exact_mod_cast Int.floor_le ((d : ℚ) / s)
  have htc_gt : (d : ℚ) / s < (tc : ℚ) + 1 := by
    rw [htc_cast]
    exact_mod_cast Int.lt_floor_add_one ((d : ℚ) / s)
  have hmul_le : (tc : ℚ) * s ≤ (d : ℚ) := by
    have := mul_le_mul_of_nonneg_right htc_le (le_of_lt hs)
    rwa [div_mul_cancel₀ _ (ne_of_gt hs)] at this
  have hmul_nonneg : (0 : ℚ) ≤ (tc : ℚ) * s := by positivity
  have hfl2_nonneg : (0 : ℤ) ≤ Int.floor ((tc : ℚ) * s) := Int.floor_nonneg.mpr hmul_nonneg
  have hr_cast : (tickToTime s tc : ℚ) = (Int.floor ((tc : ℚ) * s) : ℤ) := by
    have h : (tickToTime s tc : ℤ) = Int.floor ((tc : ℚ) * s) := by
      unfold tickToTime
      exact Int.toNat_of_nonneg hfl2_nonneg
    exact_mod_cast h
  constructor
  · have h1 : (Int.floor ((tc : ℚ) * s) : ℚ) ≤ (d : ℚ) :=
      le_trans (Int.floor_le _) hmul_le
    have h2 : (tickToTime s tc : ℚ) ≤ (d : ℚ) := by rw [hr_cast]; exact_mod_cast h1
    exact_mod_cast h2
  · have h1 : (d : ℚ) < ((tc : ℚ) + 1) * s := by
      have := mul_lt_mul_of_pos_right htc_gt hs
      rwa [div_mul_cancel₀ _ (ne_of_gt hs)] at this
    have h2 : (tc : ℚ) * s < (tickToTime s tc : ℚ) + 1 := by
      rw [hr_cast]
      exact_mod_cast Int.lt_floor_add_one ((tc : ℚ) * s)
    calc (d : ℚ) < ((tc : ℚ) + 1) * s := h1
      _ = (tc : ℚ) * s + s := by ring
      _ < (tickToTime s tc : ℚ) + 1 + s := by linarith
      _ = (tickToTime s tc : ℚ) + s + 1 := by ring

/-- Witness for C9 at scale 2 and duration 5. -/
theorem tickToTime_timeToTick_roundtrip_witness :
    (0 : ℚ) < 2 ∧ (0 : ℕ) < 5 ∧
      (tickToTime 2 (timeToTick 2 5) ≤ 5 ∧
        (5 : ℚ) < (tickToTime 2 (timeToTick 2 5) : ℚ) + 2 + 1) :=
  ⟨by norm_num, by decide, tickToTime_timeToTick_roundtrip 2 5 (by norm_num) (by decide)⟩

/-! ## Command builders (src/src/lcd_utils.cpp) -/

/-- LcdDriver::entryModeCommandCreate: bit 2 always set, bit 1 iff
cursorRightDir, bit 0 iff displayShiftEnabled. -/
def entryModeCommandCreate (cursorRightDir displayShiftEnabled : Bool) : ℕ :=
  let r0 : ℕ := 0
  let r1 := bit_set r0 (BIT 2)
  let r2 := if cursorRightDir then bit_set r1 (BIT 1) else r1
  if displayShiftEnabled then bit_set r2 (BIT 0) else r2

/-- LcdDriver::displayCommandCreate: bit 3 always set, bit 2 iff displayOn,
bit 1 iff cursorOn, bit 0 iff isCursorBlink. -/
def displayCommandCreate (displayOn cursorOn isCursorBlink : Bool) : ℕ :=
  let r0 : ℕ := 0
  let r1 := bit_set r0 (BIT 3)
  let r2 := if displayOn then bit_set r1 (BIT 2) else r1
  let r3 := if cursorOn then bit_set r2 (BIT 1) else r2
  if isCursorBlink then bit_set r3 (BIT 0) else r3

/-- LcdDriver::functionSetCommandCreate: bit 5 always set, bit 4 iff
is8BitDataLen, bit 3 iff is2Lines, bit 2 iff is5x10Font. -/
def functionSetCommandCreate (is8BitDataLen is2Lines is5x10Font : Bool) : ℕ :=
  let r0 : ℕ := 0
  let r1 := bit_set r0 (BIT 5)
  let r2 := if is8BitDataLen then bit_set r1 (BIT 4) else r1
  let r3 := if is2Lines then bit_set r2 (BIT 3) else r2
  if is5x10Font then bit_set r3 (BIT 2) else r3

/-- LcdDriver::cursorDisplayShiftCommandCreate: bit 4 always set, bit 3 iff
isShiftDisplay, bit 2 iff isRight. -/
def cursorDisplayShiftCommandCreate (isShiftDisplay isRight : Bool) : ℕ :=
  let r0 : ℕ := 0
  let r1 := bit_set r0 (BIT 4)
  let r2 := if isShiftDisplay then bit_set r1 (BIT 3) else r1
  if isRight then bit_set r2 (BIT 2) else r2

/-- C7: each command builder returns exactly its fixed bit layout (the
always-set bit plus one bit per boolean flag), and in particular
functionSetCommandCreate false true false = 0b00101000. -/
theorem commandCreate_layout :
    (∀ a b c : Bool, functionSetCommandCreate a b c =
      32 + (if a then 16 else 0) + (if b then 8 else 0) + (if c then 4 else 0)) ∧
    (∀ a b c : Bool, displayCommandCreate a b c =
      8 + (if a then 4 else 0) + (if b then 2 else 0) + (if c then 1 else 0)) ∧
    (∀ a b : Bool, entryModeCommandCreate a b =
      4 + (if a then 2 else 0) + (if b then 1 else 0)) ∧
    (∀ a b : Bool, cursorDisplayShiftCommandCreate a b =
      16 + (if a then 8 else 0) + (if b then 4 else 0)) ∧
    functionSetCommandCreate false true false = 0b00101000 := by
  refine ⟨?_, ?_, ?_, ?_, ?_⟩ <;> decide

/-! ## Transaction-level view of the driver

One element of RamWrite stands for one call of
LcdDriver::parallelDataWriteSingle: dataWrite b for a data-register write
(isDataReg = true), commandWrite b for a non-data-register write
(isDataReg = false). -/

/-- A single byte transaction on the bus, as issued by
parallelDataWriteSingle(byte, isDataReg). -/
inductive RamWrite where
  | dataWrite : ℕ → RamWrite
  | commandWrite : ℕ → RamWrite
  deriving DecidableEq, Repr

/-- MAX_TOTAL_CUSTOM_PATTERN from src/src/lcd_driver.hpp. -/
def MAX_TOTAL_CUSTOM_PATTERN : ℕ := 8

/-- LCD_MAX_PRINT_STRING from src/src/lcd_driver.hpp. -/
def LCD_MAX_PRINT_STRING : ℕ := 32

/-- LCD_JUMP_LINE_COMMAND from src/src/lcd_driver.cpp. -/
def LCD_JUMP_LINE_COMMAND : ℕ := 0xc0

/-- LCD_CLEAR_COMMAND from src/src/lcd_driver.cpp. -/
def LCD_CLEAR_COMMAND : ℕ := 0b1

/-- C isspace on byte values (default locale): space, tab, newline, vertical
tab, form feed, carriage return. -/
def isspace (c : ℕ) : Bool :=
  c = 0x20 || c = 0x09 || c = 0x0a || c = 0x0b || c = 0x0c || c = 0x0d

/-- C isdigit on byte values: between the codes of 0 and 9. -/
def isdigit (c : ℕ) : Bool := 0x30 ≤ c && c ≤ 0x39

/-- The text-mode loop body of LcdDriver::ramDataWrite (src/src/lcd_utils.cpp,
isTextMode branch), written as recursion over the remaining bytes: whitespace
other than newline and space emits nothing; the newline byte emits the
jump-line command as a non-data write; space is written as data; a backtick
followed by a digit below MAX_TOTAL_CUSTOM_PATTERN is consumed as a pair and
emits the digit value as data; every other byte is written as data. -/
def ramDataWriteText : List ℕ → List RamWrite
  | [] => []
  | c :: rest =>
    if isspace c then
      (if c = 0x0a then [RamWrite.commandWrite LCD_JUMP_LINE_COMMAND]
       else if c = 0x20 then [RamWrite.dataWrite c]
       else []) ++ ramDataWriteText rest
    else
      match rest with
      | [] => [RamWrite.dataWrite c]
      | d :: rest2 =>
        if c = 0x60 ∧ isdigit d ∧ d - 0x30 < MAX_TOTAL_CUSTOM_PATTERN then
          RamWrite.dataWrite (d - 0x30) :: ramDataWriteText rest2
        else
          RamWrite.dataWrite c :: ramDataWriteText (d :: rest2)

/-- LcdDriver::ramDataWrite transactions (ignoring the dataLen > 0 assert,
handled by ramDataWriteRun): text mode interprets the buffer, raw mode writes
every byte as data verbatim. -/
def ramDataWrite (data : List ℕ) (isTextMode : Bool) : List RamWrite :=
  if isTextMode then ramDataWriteText data else data.map RamWrite.dataWrite

/-- LcdDriver::ramDataWrite including its assert(dataLen > 0) precondition:
the Bool is false when the assert fails and execution halts (no transactions
are issued in that case). -/
def ramDataWriteRun (data : List ℕ) (isTextMode : Bool) : List RamWrite × Bool :=
  if 0 < data.length then (ramDataWrite data isTextMode, true) else ([], false)

/-- One-step unfolding of the text-mode renderer on a cons cell. -/
lemma ramDataWriteText_cons (c : ℕ) (rest : List ℕ) :
    ramDataWriteText (c :: rest) =
      if isspace c then
        (if c = 0x0a then [RamWrite.commandWrite LCD_JUMP_LINE_COMMAND]
         else if c = 0x20 then [RamWrite.dataWrite c]
         else []) ++ ramDataWriteText rest
      else
        match rest with
        | [] => [RamWrite.dataWrite c]
        | d :: rest2 =>
          if c = 0x60 ∧ isdigit d ∧ d - 0x30 < MAX_TOTAL_CUSTOM_PATTERN then
            RamWrite.dataWrite (d - 0x30) :: ramDataWriteText rest2
          else
            RamWrite.dataWrite c :: ramDataWriteText (d :: rest2) := by
  cases rest <;> rfl

/-- In text mode, ramDataWrite is the text renderer. -/
lemma ramDataWrite_true (data : List ℕ) :
    ramDataWrite data true = ramDataWriteText data := rfl

/-- C6: text-mode rendering. Whitespace other than space and newline emits
nothing; newline emits one non-data write of the jump-line command 0xC0;
space is written as ordinary data; a backtick followed by a digit d with
d < 8 is consumed as a two-byte unit emitting one data write of value d; a
backtick whose successor does not qualify, or any other byte, is written as
one ordinary data write.  In particular rendering a, newline, b yields
data a, command 0xC0, data b, and backtick-then-digit-3 yields exactly one
data write of 3. -/
theorem ramDataWrite_textMode :
    (∀ c rest, isspace c = true → c ≠ 0x0a → c ≠ 0x20 →
      ramDataWrite (c :: rest) true = ramDataWrite rest true) ∧
    (∀ rest, ramDataWrite (0x0a :: rest) true =
      RamWrite.commandWrite 0xc0 :: ramDataWrite rest true) ∧
    (∀ rest, ramDataWrite (0x20 :: rest) true =
      RamWrite.dataWrite 0x20 :: ramDataWrite rest true) ∧
    (∀ d rest, isdigit d = true → d - 0x30 < 8 →
      ramDataWrite (0x60 :: d :: rest) true =
        RamWrite.dataWrite (d - 0x30) :: ramDataWrite rest true) ∧
    (∀ c rest, isspace c = false → c ≠ 0x60 →
      ramDataWrite (c :: rest) true = RamWrite.dataWrite c :: ramDataWrite rest true) ∧
    (∀ d rest, ¬(isdigit d = true ∧ d - 0x30 < 8) →
      ramDataWrite (0x60 :: d :: rest) true =
        RamWrite.dataWrite 0x60 :: ramDataWrite (d :: rest) true) ∧
    ramDataWrite [0x60] true = [RamWrite.dataWrite 0x60] ∧
    ramDataWrite [97, 0x0a, 98] true =
      [RamWrite.dataWrite 97, RamWrite.commandWrite 0xc0, RamWrite.dataWrite 98] ∧
    ramDataWrite [0x60, 0x33] true = [RamWrite.dataWrite 3] := by
  refine ⟨?_, ?_, ?_, ?_, ?_, ?_, ?_, ?_, ?_⟩
  · intro c rest hsp h0a h20
    rw [ramDataWrite_true, ramDataWrite_true, ramDataWriteText_cons, if_pos hsp,
      if_neg h0a, if_neg h20, List.nil_append]
  · intro rest
    rw [ramDataWrite_true, ramDataWrite_true, ramDataWriteText_cons]
    norm_num [isspace, LCD_JUMP_LINE_COMMAND]
  · intro rest
    rw [ramDataWrite_true, ramDataWrite_true, ramDataWriteText_cons]
    norm_num [isspace]
  · intro d rest hdg hlt
    have hns : isspace 0x60 = false := by decide
    rw [ramDataWrite_true, ramDataWrite_true, ramDataWriteText_cons, hns]
    simp [hdg, hlt, MAX_TOTAL_CUSTOM_PATTERN]
  · intro c rest hsp hbt
    cases rest with
    | nil =>
      rw [ramDataWrite_true, ramDataWrite_true, ramDataWriteText_cons, hsp]
      simp [ramDataWriteText]
    | cons d rest2 =>
      have hno : ¬(c = 0x60 ∧ isdigit d = true ∧ d - 0x30 < MAX_TOTAL_CUSTOM_PATTERN) := by
        intro h; exact hbt h.1
      rw [ramDataWrite_true, ramDataWrite_true, ramDataWriteText_cons, hsp]
      simp only [Bool.false_eq_true, if_false]
      rw [if_neg hno]
  · intro d rest hnq
    have hns : isspace 0x60 = false := by decide
    have hno : ¬(isdigit d = true ∧ d - 0x30 < MAX_TOTAL_CUSTOM_PATTERN) := by
      intro h; exact hnq ⟨h.1, h.2⟩
    rw [ramDataWrite_true, ramDataWrite_true, ramDataWriteText_cons, hns]
    simp [hno]
  · decide
  · decide
  · decide

/-- Witness for C6: each hypothesis-bearing conjunct applied at a concrete
input (tab is skipped, newline, space, backtick-digit, ordinary byte,
backtick with non-qualifying successor). -/
theorem ramDataWrite_textMode_witness :
    ramDataWrite [0x09, 98] true = ramDataWrite [98] true ∧
    ramDataWrite [0x0a] true = RamWrite.commandWrite 0xc0 :: ramDataWrite [] true ∧
    ramDataWrite [0x20] true = RamWrite.dataWrite 0x20 :: ramDataWrite [] true ∧
    ramDataWrite [0x60, 0x33] true = RamWrite.dataWrite 3 :: ramDataWrite [] true ∧
    ramDataWrite [98] true = RamWrite.dataWrite 98 :: ramDataWrite [] true ∧
    ramDataWrite [0x60, 0x39] true =
      RamWrite.dataWrite 0x60 :: ramDataWrite [0x39] true :=
  ⟨ramDataWrite_textMode.1 0x09 [98] (by decide) (by decide) (by decide),
    ramDataWrite_textMode.2.1 [],
    ramDataWrite_textMode.2.2.1 [],
    ramDataWrite_textMode.2.2.2.1 0x33 [] (by decide) (by decide),
    ramDataWrite_textMode.2.2.2.2.1 98 [] (by decide) (by decide),
    ramDataWrite_textMode.2.2.2.2.2.1 0x39 [] (by decide)⟩

/-- LcdDriver::addrCounterChange (src/src/lcd_utils.cpp): one
parallelDataWriteSingle(addr | (isDataRam ? BIT(7) : BIT(6)), false), i.e.
exactly one non-data-register write (the byte argument is a uint8_t, hence
the reduction modulo 256). -/
def addrCounterChange (addr : ℕ) (isDataRam : Bool) : List RamWrite :=
  [RamWrite.commandWrite ((addr ||| (if isDataRam then BIT 7 else BIT 6)) % 256)]

/-- C8: for every 7-bit address, addrCounterChange issues exactly one
non-data-register write, of addr with bit 7 set when isDataRam and bit 6 set
otherwise; in particular address 5 transmits 0x45 (CGRAM) and 0x85 (DDRAM). -/
theorem addrCounterChange_byte (addr : ℕ) (haddr : addr < 128) :
    addrCounterChange addr true = [RamWrite.commandWrite (addr ||| BIT 7)] ∧
    addrCounterChange addr false = [RamWrite.commandWrite (addr ||| BIT 6)] ∧
    addrCounterChange 5 false = [RamWrite.commandWrite 0x45] ∧
    addrCounterChange 5 true = [RamWrite.commandWrite 0x85] := by
  have h256 : (256 : ℕ) = 2 ^ 8 := by norm_num
  have h7 : addr ||| BIT 7 < 256 := by
    rw [h256]
    exact Nat.or_lt_two_pow (by omega) (by decide)
  have h6 : addr ||| BIT 6 < 256 := by
    rw [h256]
    exact Nat.or_lt_two_pow (by omega) (by decide)
  refine ⟨?_, ?_, by decide, by decide⟩
  · simp [addrCounterChange, Nat.mod_eq_of_lt h7]
  · simp [addrCounterChange, Nat.mod_eq_of_lt h6]

/-- Witness for C8 at address 5. -/
theorem addrCounterChange_byte_witness :
    (5 : ℕ) < 128 ∧ addrCounterChange 5 false = [RamWrite.commandWrite 0x45] :=
  ⟨by decide, (addrCounterChange_byte 5 (by decide)).2.2.1⟩

/-- LcdDriver::displayWrite (src/src/lcd_driver.cpp): asserts the string is
at most LCD_MAX_PRINT_STRING long (halting on failure before any bus
traffic), then writes the clear-display command, then runs ramDataWrite in
text mode (whose own assert(dataLen > 0) halts on an empty string).  Returns
the transactions issued before any halt, and true iff no assert fired. -/
def displayWrite (dataToWrite : List ℕ) : List RamWrite × Bool :=
  if LCD_MAX_PRINT_STRING ≥ dataToWrite.length then
    let r := ramDataWriteRun dataToWrite true
    (RamWrite.commandWrite LCD_CLEAR_COMMAND :: r.1, r.2)
  else
    ([], false)

/-- C10 counterexample: on the zero-length string the run does halt (second
component false), but a bus write -- the clear-display command -- has already
been issued before the halt, contradicting the claim that no byte is
transferred. -/
theorem displayWrite_empty_counterexample :
    (displayWrite []).2 = false ∧ (displayWrite []).1 ≠ [] := by
  decide

/-- C10 amended: an over-length (more than 32 byte) argument halts at
displayWrite's own precondition check before any byte is transferred; a
zero-length argument halts at ramDataWrite's length precondition, but only
after the clear-display command byte has been transferred. -/
theorem displayWrite_precondition (s : List ℕ) (hlong : LCD_MAX_PRINT_STRING < s.length) :
    displayWrite s = ([], false) ∧
    displayWrite [] = ([RamWrite.commandWrite LCD_CLEAR_COMMAND], false) := by
  constructor
  · have h : ¬ LCD_MAX_PRINT_STRING ≥ s.length := by omega
    simp [displayWrite, h]
  · decide

/-- Witness for C10 amended, on a 33-byte string. -/
theorem displayWrite_precondition_witness :
    LCD_MAX_PRINT_STRING < (List.replicate 33 97).length ∧
      displayWrite (List.replicate 33 97) = ([], false) :=
  ⟨by decide, (displayWrite_precondition (List.replicate 33 97) (by decide)).1⟩

/-! ## comMaintain at the signal level (src/src/lcd_driver.cpp) -/

/-- COM_TIME_SCALER from src/src/lcd_driver.cpp. -/
def COM_TIME_SCALER : ℕ := 7000

/-- LCD_PULSE_WIDTH_NANOSEC. -/
def LCD_PULSE_WIDTH_NANOSEC : ℕ := 200 * COM_TIME_SCALER

/-- LCD_MIN_CYCLE_TIME_NANOSEC. -/
def LCD_MIN_CYCLE_TIME_NANOSEC : ℕ := 410 * COM_TIME_SCALER

/-- LCD_DATA_SETUP_TIME_NANOSEC. -/
def LCD_DATA_SETUP_TIME_NANOSEC : ℕ := 45 * COM_TIME_SCALER

/-- LCD_DATA_HOLD_TIME_NANOSEC. -/
def LCD_DATA_HOLD_TIME_NANOSEC : ℕ := 15 * COM_TIME_SCALER

/-- TIVA_MAX_RISE_TIME. -/
def TIVA_MAX_RISE_TIME : ℕ := 13

/-- TIVA_MAX_FALSE_TIME. -/
def TIVA_MAX_FALSE_TIME : ℕ := 14

/-- LCD_DATA_WRITE_WAIT_NANOSEC =
TIVA_MAX_RISE_TIME + LCD_PULSE_WIDTH_NANOSEC - (LCD_DATA_SETUP_TIME_NANOSEC)
(value 1085013). -/
def LCD_DATA_WRITE_WAIT_NANOSEC : ℕ :=
  TIVA_MAX_RISE_TIME + LCD_PULSE_WIDTH_NANOSEC - LCD_DATA_SETUP_TIME_NANOSEC

/-- LCD_DATA_READ_WAIT_NANOSEC. -/
def LCD_DATA_READ_WAIT_NANOSEC : ℕ := 800

/-- The middle wait of comMaintain.  The C source is
wait(LCD_MIN_CYCLE_TIME_NANOSEC - LCD_DATA_WRITE_WAIT_NANOSEC); since the
macro body of LCD_DATA_WRITE_WAIT_NANOSEC is not parenthesized, the
preprocessor expands this to
410 * 7000 - 13 + 200 * 7000 - (45 * 7000) = 3954987, not to the difference
LCD_MIN_CYCLE_TIME_NANOSEC - 1085013 = 1784987. -/
def comMaintainMiddleWait : ℕ :=
  LCD_MIN_CYCLE_TIME_NANOSEC - TIVA_MAX_RISE_TIME + LCD_PULSE_WIDTH_NANOSEC -
    LCD_DATA_SETUP_TIME_NANOSEC

/-- One primitive step of the enable-line protocol: a busy wait of some
nanoseconds (GeneralTimer::wait) or a write of the enable line
(LcdDriver::comSwitch). -/
inductive ComStep where
  | wait : ℕ → ComStep
  | comSwitch : Bool → ComStep
  deriving DecidableEq, Repr

/-- LcdDriver::comMaintain (src/src/lcd_driver.cpp lines 147-154) as its
sequence of primitive steps, in program order. -/
def comMaintain (isReadMode : Bool) : List ComStep :=
  let waitTime :=
    if isReadMode then LCD_DATA_READ_WAIT_NANOSEC else LCD_DATA_WRITE_WAIT_NANOSEC
  [ComStep.wait LCD_DATA_SETUP_TIME_NANOSEC,
   ComStep.comSwitch false,
   ComStep.wait comMaintainMiddleWait,
   ComStep.comSwitch true,
   ComStep.wait waitTime]

/-- C4 counterexample: in write mode the maintain-cycle does not lower the
enable line first and wait the data setup time afterwards (with the
remainder wait, the re-raise and the propagation delay following), as the
claim states: the trace starts with the setup-time wait, not with the
enable-low edge. -/
theorem comMaintain_order_counterexample :
    comMaintain false ≠
      [ComStep.comSwitch false,
       ComStep.wait LCD_DATA_SETUP_TIME_NANOSEC,
       ComStep.wait (LCD_MIN_CYCLE_TIME_NANOSEC - LCD_DATA_WRITE_WAIT_NANOSEC),
       ComStep.comSwitch true,
       ComStep.wait LCD_DATA_WRITE_WAIT_NANOSEC] := by
  decide

/-- C4 amended: every maintain-cycle first waits the data setup time, then
lowers the enable line, then waits the textually-expanded remainder of the
minimum enable-cycle time (min-cycle - rise-time + pulse-width - data-setup,
3954987 ns, the unparenthesized macro making it exceed the intended
min-cycle - write-wait difference), then re-raises enable and waits the
mode-specific propagation delay (800 ns for reads, 1085013 ns for writes). -/
theorem comMaintain_order (isReadMode : Bool) :
    comMaintain isReadMode =
      [ComStep.wait LCD_DATA_SETUP_TIME_NANOSEC,
       ComStep.comSwitch false,
       ComStep.wait comMaintainMiddleWait,
       ComStep.comSwitch true,
       ComStep.wait (if isReadMode then LCD_DATA_READ_WAIT_NANOSEC
                     else LCD_DATA_WRITE_WAIT_NANOSEC)] := by
  cases isReadMode <;> rfl

/-! ## Parallel bus transfers (src/src/lcd_utils.cpp)

The bus protocol is modelled as the trace of calls the transfer functions
make, in program order: parallelModeSwitch, comSetup, pinWrite/pinRead on a
data line, comMaintain, comStop.  Data-line levels read from the controller
are supplied by a sample oracle indexed by enable-pulse arrival order. -/

/-- TOTAL_PARALLEL_PIN from src/src/lcd_driver.hpp. -/
def TOTAL_PARALLEL_PIN : ℕ := 4

/-- _totalBitPerPin from LcdDriver's constructor: 8 / TOTAL_PARALLEL_PIN. -/
def totalBitPerPin : ℕ := 8 / TOTAL_PARALLEL_PIN

/-- One observable action of the transfer engine. -/
inductive BusEvent where
  | modeSwitch : Bool → BusEvent
  | comSetup : Bool → Bool → BusEvent
  | pinWrite : ℕ → Bool → BusEvent
  | pinRead : ℕ → Bool → BusEvent
  | comMaintain : Bool → BusEvent
  | comStop : BusEvent
  deriving DecidableEq, Repr

/-- The pin writes of one transfer unit: for each data line (ascending pin
index) the level bit_get(data >> 4 * bitIndex, BIT(pin)), as in the inner
loop of parallelDataWriteSingle / parallelDataWrite. -/
def pdwUnit (data bitIndex : ℕ) : List BusEvent :=
  (List.range TOTAL_PARALLEL_PIN).map fun pin =>
    BusEvent.pinWrite pin (bit_get (data >>> (4 * bitIndex)) (BIT pin) != 0)

/-- LcdDriver::parallelDataWriteSingle: mode switch to output, comSetup,
then for bitIndex from _totalBitPerPin - 1 down to 0 the unit's pin writes
followed by comMaintain(false) whenever 0 != bitIndex, then comStop. -/
def parallelDataWriteSingle (data : ℕ) (isDataReg : Bool) : List BusEvent :=
  [BusEvent.modeSwitch false, BusEvent.comSetup isDataReg false] ++
  ((List.range totalBitPerPin).reverse.map fun bitIndex =>
    pdwUnit data bitIndex ++
      (if 0 ≠ bitIndex then [BusEvent.comMaintain false] else [])).flatten ++
  [BusEvent.comStop]

/-- LcdDriver::parallelDataWrite: mode switch to output, comSetup, then for
each dataIndex and bitIndex from _totalBitPerPin - 1 down to 0 the unit's
pin writes followed by comMaintain(false) whenever
0 != bitIndex or dataLen - 1 != dataIndex, then comStop. -/
def parallelDataWrite (dataList : List ℕ) (isDataReg : Bool) : List BusEvent :=
  [BusEvent.modeSwitch false, BusEvent.comSetup isDataReg false] ++
  ((List.range dataList.length).map fun dataIndex =>
    ((List.range totalBitPerPin).reverse.map fun bitIndex =>
      pdwUnit (dataList.getD dataIndex 0) bitIndex ++
        (if 0 ≠ bitIndex ∨ dataList.length - 1 ≠ dataIndex
         then [BusEvent.comMaintain false] else [])).flatten).flatten ++
  [BusEvent.comStop]

/-- The pin reads of one transfer unit, given the data-line levels during
that unit's enable pulse. -/
def pdrUnit (sampleUnit : ℕ → Bool) : List BusEvent :=
  (List.range TOTAL_PARALLEL_PIN).map fun pin =>
    BusEvent.pinRead pin (sampleUnit pin)

/-- LcdDriver::parallelDataRead, trace part: mode switch to input,
comSetup in read mode, then for each expected byte the unit reads with
comMaintain(true) whenever 0 != bitIndex or totalReadData - 1 != dataIndex,
then comStop.  sample u pin is the level of data line pin during the u-th
enable pulse of the transfer (pulses counted in arrival order, so within a
byte the pulse for bitIndex comes totalBitPerPin - 1 - bitIndex-th). -/
def parallelDataRead (isDataReg : Bool) (totalReadData : ℕ)
    (sample : ℕ → ℕ → Bool) : List BusEvent :=
  [BusEvent.modeSwitch true, BusEvent.comSetup isDataReg true] ++
  ((List.range totalReadData).map fun dataIndex =>
    ((List.range totalBitPerPin).reverse.map fun bitIndex =>
      pdrUnit (sample (totalBitPerPin * dataIndex + (totalBitPerPin - 1 - bitIndex))) ++
        (if 0 ≠ bitIndex ∨ totalReadData - 1 ≠ dataIndex
         then [BusEvent.comMaintain true] else [])).flatten).flatten ++
  [BusEvent.comStop]

/-- LcdDriver::parallelDataRead, value part for one result byte: starting
from the zeroed buffer entry, for bitIndex from _totalBitPerPin - 1 down
to 0 and each pin, set bit pin + 4 * bitIndex when the sampled level is
high. -/
def pdrByte (sample : ℕ → ℕ → Bool) (dataIndex : ℕ) : ℕ :=
  (List.range totalBitPerPin).reverse.foldl
    (fun acc bitIndex =>
      (List.range TOTAL_PARALLEL_PIN).foldl
        (fun a pin =>
          if sample (totalBitPerPin * dataIndex + (totalBitPerPin - 1 - bitIndex)) pin
          then bit_set a (BIT (pin + 4 * bitIndex)) else a)
        acc)
    0

/-- The buffer filled by parallelDataRead: one pdrByte per expected byte. -/
def parallelDataReadBuf (totalReadData : ℕ) (sample : ℕ → ℕ → Bool) : List ℕ :=
  (List.range totalReadData).map fun dataIndex => pdrByte sample dataIndex

/-- Event-class discriminators used to count protocol phases in a trace. -/
def isMaintainEv : BusEvent → Bool
  | BusEvent.comMaintain _ => true
  | _ => false

/-- Discriminator for comSetup events. -/
def isSetupEv : BusEvent → Bool
  | BusEvent.comSetup _ _ => true
  | _ => false

/-- Discriminator for comStop events. -/
def isStopEv : BusEvent → Bool
  | BusEvent.comStop => true
  | _ => false

/-- The C condition bit_get(x, BIT(p)) used as a bool is exactly bit p of x. -/
lemma bit_get_BIT (x p : ℕ) : (bit_get x (BIT p) != 0) = x.testBit p := by
  unfold bit_get BIT
  rw [Nat.shiftLeft_eq, one_mul, Nat.and_two_pow]
  cases hb : x.testBit p <;> simp [hb, Nat.pow_eq_zero]

/-- C2: a byte written over the 4 data lines goes out as two 4-bit units,
most significant nibble first: after the mode switch and the address setup,
data line p first carries bit p of data >> 4, then after the maintain cycle
bit p of the low nibble data % 16, then the transfer stops; in particular
0x41 is asserted as the nibble 0100 (only data line 2 high) and then 0001
(only data line 0 high). -/
theorem parallelDataWriteSingle_nibbles (data : ℕ) (isDataReg : Bool) :
    parallelDataWriteSingle data isDataReg =
      [BusEvent.modeSwitch false, BusEvent.comSetup isDataReg false,
       BusEvent.pinWrite 0 ((data >>> 4).testBit 0),
       BusEvent.pinWrite 1 ((data >>> 4).testBit 1),
       BusEvent.pinWrite 2 ((data >>> 4).testBit 2),
       BusEvent.pinWrite 3 ((data >>> 4).testBit 3),
       BusEvent.comMaintain false,
       BusEvent.pinWrite 0 ((data % 16).testBit 0),
       BusEvent.pinWrite 1 ((data % 16).testBit 1),
       BusEvent.pinWrite 2 ((data % 16).testBit 2),
       BusEvent.pinWrite 3 ((data % 16).testBit 3),
       BusEvent.comStop] ∧
    parallelDataWriteSingle 0x41 isDataReg =
      [BusEvent.modeSwitch false, BusEvent.comSetup isDataReg false,
       BusEvent.pinWrite 0 false, BusEvent.pinWrite 1 false,
       BusEvent.pinWrite 2 true, BusEvent.pinWrite 3 false,
       BusEvent.comMaintain false,
       BusEvent.pinWrite 0 true, BusEvent.pinWrite 1 false,
       BusEvent.pinWrite 2 false, BusEvent.pinWrite 3 false,
       BusEvent.comStop] := by
  constructor
  · have h16 : (16 : ℕ) = 2 ^ 4 := by norm_num
    simp only [parallelDataWriteSingle, pdwUnit, totalBitPerPin, TOTAL_PARALLEL_PIN]
    simp only [h16, Nat.testBit_mod_two_pow]
    norm_num [List.range_succ, bit_get_BIT]
  · cases isDataReg <;> rfl

/-- Flattening an interspersed list, peeling the first chunk. -/
lemma flatten_intersperse_cons {α : Type} (sep u : List α) (us : List (List α))
    (h : us ≠ []) :
    (List.intersperse sep (u :: us)).flatten =
      u ++ sep ++ (List.intersperse sep us).flatten := by
  cases us with
  | nil => exact absurd rfl h
  | cons v tl =>
    rw [List.intersperse_cons_cons]
    simp [List.append_assoc]

/-- The front of the first 2(m+1) indices, mapped: the images of 0 and 1
followed by the images of the next 2m indices shifted by two. -/
lemma range_map_front {α : Type} (U : ℕ → List α) (m : ℕ) :
    (List.range (2 * (m + 1))).map U =
      U 0 :: U 1 :: (List.range (2 * m)).map (fun u => U (u + 2)) := by
  have e2m : 2 * (m + 1) = 2 * m + 1 + 1 := by ring
  rw [e2m, List.range_succ_eq_map, List.range_succ_eq_map]
  simp only [List.map_cons, List.map_map]
  have hfun : (U ∘ Nat.succ ∘ Nat.succ) = (fun u => U (u + 2)) := by
    funext u
    rfl
  rw [hfun]

/-- A flattened sequence of per-byte blocks, each block being two units with
a separator between them and a trailing separator except after the last
block, equals the flattened interspersion of the separator into the flat
list of units. -/
lemma flatten_two_unit_blocks {α : Type} (sep : α) :
    ∀ (n : ℕ), n ≠ 0 → ∀ (U : ℕ → List α) (f : ℕ → List α),
      (∀ i, f i = U (2 * i) ++ [sep] ++ U (2 * i + 1) ++
        (if n - 1 ≠ i then [sep] else [])) →
      ((List.range n).map f).flatten =
        (List.intersperse [sep] ((List.range (2 * n)).map U)).flatten := by
  intro n
  induction n with
  | zero => intro h; exact absurd rfl h
  | succ m ih =>
    intro _ U f hf
    by_cases hm : m = 0
    · subst hm
      have h0 : f 0 = U 0 ++ [sep] ++ U 1 := by
        rw [hf 0]
        norm_num
      have hr1 : List.range 1 = [0] := rfl
      have hr2 : (2 : ℕ) * 1 = 2 := by norm_num
      rw [hr1, hr2, show List.range 2 = [0, 1] from rfl]
      simp [h0, List.intersperse_cons_cons]
    · rw [List.range_succ_eq_map, List.map_cons, List.flatten_cons, List.map_map]
      have hblk : ∀ i, (f ∘ Nat.succ) i =
          (fun u => U (u + 2)) (2 * i) ++ [sep] ++ (fun u => U (u + 2)) (2 * i + 1) ++
            (if m - 1 ≠ i then [sep] else []) := by
        intro i
        simp only [Function.comp_apply]
        rw [hf (i + 1)]
        have e1 : 2 * (i + 1) = 2 * i + 2 := by ring
        have e2 : 2 * i + 2 + 1 = 2 * i + 1 + 2 := by ring
        have e3 : (m + 1 - 1 ≠ i + 1) = (m - 1 ≠ i) := by
          apply propext
          constructor <;> intro h <;> omega
        rw [e1, e2]
        simp only [e3]
      have htail := ih hm (fun u => U (u + 2)) (f ∘ Nat.succ) hblk
      rw [htail, hf 0]
      have e0 : (2 : ℕ) * 0 = 0 := by norm_num
      have e01 : (2 : ℕ) * 0 + 1 = 1 := by norm_num
      rw [e0, e01, if_pos (show m + 1 - 1 ≠ 0 by omega)]
      rw [range_map_front]
      have hne2 : (List.range (2 * m)).map (fun u => U (u + 2)) ≠ [] := by
        simp only [ne_eq, List.map_eq_nil_iff, List.range_eq_nil]
        omega
      rw [flatten_intersperse_cons [sep] (U 0)
        (U 1 :: (List.range (2 * m)).map (fun u => U (u + 2))) (by simp),
        flatten_intersperse_cons [sep] (U 1)
        ((List.range (2 * m)).map (fun u => U (u + 2))) hne2]
      simp [List.append_assoc]

/-- Unfolding of one byte's inner loop in parallelDataWrite: the high-nibble
unit, a maintain, the low-nibble unit, and a maintain unless this is the
last byte. -/
lemma write_block_eq (b n i : ℕ) :
    ((List.range totalBitPerPin).reverse.map fun bitIndex =>
      pdwUnit b bitIndex ++
        (if 0 ≠ bitIndex ∨ n - 1 ≠ i
         then [BusEvent.comMaintain false] else [])).flatten
    = pdwUnit b 1 ++ [BusEvent.comMaintain false] ++ pdwUnit b 0 ++
        (if n - 1 ≠ i then [BusEvent.comMaintain false] else []) := by
  have hr : (List.range totalBitPerPin).reverse = [1, 0] := rfl
  rw [hr]
  simp only [List.map_cons, List.map_nil, List.flatten_cons, List.flatten_nil,
    List.append_nil]
  rw [if_pos (Or.inl (by decide : (0 : ℕ) ≠ 1))]
  have hc : ((0 : ℕ) ≠ 0 ∨ n - 1 ≠ i) = (n - 1 ≠ i) := by
    apply propext
    constructor
    · intro h
      cases h with
      | inl h0 => exact absurd rfl h0
      | inr h1 => exact h1
    · exact Or.inr
  simp only [hc]
  simp [List.append_assoc]

/-- Counting with a predicate over a flattened interspersion: only the
separators contribute when every chunk counts zero. -/
lemma countP_intersperse_flatten {α : Type} (p : α → Bool) (sep : List α) :
    ∀ (us : List (List α)), us ≠ [] → (∀ u ∈ us, u.countP p = 0) →
      ((List.intersperse sep us).flatten).countP p =
        (us.length - 1) * sep.countP p := by
  intro us
  induction us with
  | nil => intro h; exact absurd rfl h
  | cons u tl ih =>
    intro _ hu
    cases tl with
    | nil => simp [List.intersperse_singleton, hu u (by simp)]
    | cons v tl2 =>
      rw [flatten_intersperse_cons sep u (v :: tl2) (by simp),
        List.countP_append, List.countP_append, hu u (by simp),
        ih (by simp) (fun w hw => hu w (List.mem_cons_of_mem u hw))]
      simp only [List.length_cons, Nat.add_sub_cancel]
      ring

/-- A write unit contains only pinWrite events, so any predicate false on
pinWrite counts zero on it. -/
lemma pdwUnit_countP (q : BusEvent → Bool)
    (hq : ∀ pin v, q (BusEvent.pinWrite pin v) = false) (b k : ℕ) :
    (pdwUnit b k).countP q = 0 := by
  rw [List.countP_eq_zero]
  intro a ha
  simp only [pdwUnit, List.mem_map, List.mem_range] at ha
  obtain ⟨pin, _, rfl⟩ := ha
  simp [hq]

/-- A read unit contains only pinRead events, so any predicate false on
pinRead counts zero on it. -/
lemma pdrUnit_countP (q : BusEvent → Bool)
    (hq : ∀ pin v, q (BusEvent.pinRead pin v) = false) (s : ℕ → Bool) :
    (pdrUnit s).countP q = 0 := by
  rw [List.countP_eq_zero]
  intro a ha
  simp only [pdrUnit, List.mem_map, List.mem_range] at ha
  obtain ⟨pin, _, rfl⟩ := ha
  simp [hq]

/-- C3: a non-empty n-byte write over 4 data lines performs one mode switch
and one AddressSetup, then the 2n nibble units (unit u carries byte u / 2 at
nibble index 1 - u % 2) with a maintain-cycle between every two consecutive
units and none after the last, then one EnableLowFinal: the trace is the
interspersion of single maintain-cycles into the unit list, and it contains
exactly 2n - 1 maintain events, exactly one setup event and exactly one stop
event. -/
theorem parallelDataWrite_protocol (dataList : List ℕ) (isDataReg : Bool)
    (h : dataList ≠ []) :
    parallelDataWrite dataList isDataReg =
      [BusEvent.modeSwitch false, BusEvent.comSetup isDataReg false] ++
        (List.intersperse [BusEvent.comMaintain false]
          ((List.range (2 * dataList.length)).map fun u =>
            pdwUnit (dataList.getD (u / 2) 0) (1 - u % 2))).flatten ++
      [BusEvent.comStop] ∧
    (parallelDataWrite dataList isDataReg).countP isMaintainEv =
      2 * dataList.length - 1 ∧
    (parallelDataWrite dataList isDataReg).countP isSetupEv = 1 ∧
    (parallelDataWrite dataList isDataReg).countP isStopEv = 1 := by
  have hn : dataList.length ≠ 0 := fun hl => h (List.length_eq_zero.mp hl)
  have hblocks : ∀ i,
      ((List.range totalBitPerPin).reverse.map fun bitIndex =>
        pdwUnit (dataList.getD i 0) bitIndex ++
          (if 0 ≠ bitIndex ∨ dataList.length - 1 ≠ i
           then [BusEvent.comMaintain false] else [])).flatten =
      (fun u => pdwUnit (dataList.getD (u / 2) 0) (1 - u % 2)) (2 * i) ++
        [BusEvent.comMaintain false] ++
        (fun u => pdwUnit (dataList.getD (u / 2) 0) (1 - u % 2)) (2 * i + 1) ++
        (if dataList.length - 1 ≠ i then [BusEvent.comMaintain false] else []) := by
    intro i
    rw [write_block_eq]
    have g1 : 2 * i / 2 = i := by omega
    have g2 : 1 - 2 * i % 2 = 1 := by omega
    have g3 : (2 * i + 1) / 2 = i := by omega
    have g4 : 1 - (2 * i + 1) % 2 = 0 := by omega
    simp only [g1, g2, g3, g4]
  have hmain := flatten_two_unit_blocks (BusEvent.comMaintain false)
    dataList.length hn
    (fun u => pdwUnit (dataList.getD (u / 2) 0) (1 - u % 2))
    (fun i => ((List.range totalBitPerPin).reverse.map fun bitIndex =>
      pdwUnit (dataList.getD i 0) bitIndex ++
        (if 0 ≠ bitIndex ∨ dataList.length - 1 ≠ i
         then [BusEvent.comMaintain false] else [])).flatten)
    hblocks
  have htrace : parallelDataWrite dataList isDataReg =
      [BusEvent.modeSwitch false, BusEvent.comSetup isDataReg false] ++
        (List.intersperse [BusEvent.comMaintain false]
          ((List.range (2 * dataList.length)).map fun u =>
            pdwUnit (dataList.getD (u / 2) 0) (1 - u % 2))).flatten ++
      [BusEvent.comStop] := by
    unfold parallelDataWrite
    rw [hmain]
  refine ⟨htrace, ?_, ?_, ?_⟩
  all_goals rw [htrace]
  all_goals rw [List.countP_append, List.countP_append]
  · rw [countP_intersperse_flatten isMaintainEv [BusEvent.comMaintain false] _
      (by simp [List.range_eq_nil, hn])
      (by
        intro u hu
        simp only [List.mem_map, List.mem_range] at hu
        obtain ⟨k, _, rfl⟩ := hu
        exact pdwUnit_countP isMaintainEv (fun _ _ => rfl) _ _)]
    simp [isMaintainEv, List.countP_cons, List.countP_nil]
  · rw [countP_intersperse_flatten isSetupEv [BusEvent.comMaintain false] _
      (by simp [List.range_eq_nil, hn])
      (by
        intro u hu
        simp only [List.mem_map, List.mem_range] at hu
        obtain ⟨k, _, rfl⟩ := hu
        exact pdwUnit_countP isSetupEv (fun _ _ => rfl) _ _)]
    simp [isSetupEv, List.countP_cons, List.countP_nil]
  · rw [countP_intersperse_flatten isStopEv [BusEvent.comMaintain false] _
      (by simp [List.range_eq_nil, hn])
      (by
        intro u hu
        simp only [List.mem_map, List.mem_range] at hu
        obtain ⟨k, _, rfl⟩ := hu
        exact pdwUnit_countP isStopEv (fun _ _ => rfl) _ _)]
    simp [isStopEv, List.countP_cons, List.countP_nil]

/-- Witness for C3 on the single-byte list [0x41]: 2 nibble units, exactly
one maintain event. -/
theorem parallelDataWrite_protocol_witness :
    ([0x41] : List ℕ) ≠ [] ∧
      (parallelDataWrite [0x41] false).countP isMaintainEv =
        2 * ([0x41] : List ℕ).length - 1 :=
  ⟨by decide, (parallelDataWrite_protocol [0x41] false (by decide)).2.1⟩

/-- pdrByte with the eight sampled pin levels of the two units (high nibble
unit first, then low nibble unit) taken as arguments: the unfolding of the
two nested loops. -/
def pdrByteFun (a0 a1 a2 a3 b0 b1 b2 b3 : Bool) : ℕ :=
  let c0 : ℕ := 0
  let c1 := if a0 then bit_set c0 (BIT 4) else c0
  let c2 := if a1 then bit_set c1 (BIT 5) else c1
  let c3 := if a2 then bit_set c2 (BIT 6) else c2
  let c4 := if a3 then bit_set c3 (BIT 7) else c3
  let c5 := if b0 then bit_set c4 (BIT 0) else c4
  let c6 := if b1 then bit_set c5 (BIT 1) else c5
  let c7 := if b2 then bit_set c6 (BIT 2) else c6
  if b3 then bit_set c7 (BIT 3) else c7

/-- pdrByte coincides with its unfolding on the eight samples of byte i. -/
lemma pdrByte_eq (sample : ℕ → ℕ → Bool) (i : ℕ) :
    pdrByte sample i =
      pdrByteFun (sample (2 * i) 0) (sample (2 * i) 1)
        (sample (2 * i) 2) (sample (2 * i) 3)
        (sample (2 * i + 1) 0) (sample (2 * i + 1) 1)
        (sample (2 * i + 1) 2) (sample (2 * i + 1) 3) := rfl

/-- Bit layout of the accumulated read byte: bit p + 4 comes from the first
(high) unit's pin p, bit p from the second (low) unit's pin p. -/
lemma pdrByteFun_testBit :
    ∀ a0 a1 a2 a3 b0 b1 b2 b3 : Bool,
      (pdrByteFun a0 a1 a2 a3 b0 b1 b2 b3).testBit 4 = a0 ∧
      (pdrByteFun a0 a1 a2 a3 b0 b1 b2 b3).testBit 5 = a1 ∧
      (pdrByteFun a0 a1 a2 a3 b0 b1 b2 b3).testBit 6 = a2 ∧
      (pdrByteFun a0 a1 a2 a3 b0 b1 b2 b3).testBit 7 = a3 ∧
      (pdrByteFun a0 a1 a2 a3 b0 b1 b2 b3).testBit 0 = b0 ∧
      (pdrByteFun a0 a1 a2 a3 b0 b1 b2 b3).testBit 1 = b1 ∧
      (pdrByteFun a0 a1 a2 a3 b0 b1 b2 b3).testBit 2 = b2 ∧
      (pdrByteFun a0 a1 a2 a3 b0 b1 b2 b3).testBit 3 = b3 := by
  decide

/-- Unfolding of one byte's inner loop in parallelDataRead: the unit read at
arrival 2i, a maintain, the unit read at arrival 2i + 1, and a maintain
unless this is the last byte. -/
lemma read_block_eq (sample : ℕ → ℕ → Bool) (n i : ℕ) :
    ((List.range totalBitPerPin).reverse.map fun bitIndex =>
      pdrUnit (sample (totalBitPerPin * i + (totalBitPerPin - 1 - bitIndex))) ++
        (if 0 ≠ bitIndex ∨ n - 1 ≠ i
         then [BusEvent.comMaintain true] else [])).flatten
    = pdrUnit (sample (2 * i)) ++ [BusEvent.comMaintain true] ++
        pdrUnit (sample (2 * i + 1)) ++
        (if n - 1 ≠ i then [BusEvent.comMaintain true] else []) := by
  have hr : (List.range totalBitPerPin).reverse = [1, 0] := rfl
  rw [hr]
  simp only [List.map_cons, List.map_nil, List.flatten_cons, List.flatten_nil,
    List.append_nil]
  rw [if_pos (Or.inl (by decide : (0 : ℕ) ≠ 1))]
  have hc : ((0 : ℕ) ≠ 0 ∨ n - 1 ≠ i) = (n - 1 ≠ i) := by
    apply propext
    constructor
    · intro h
      cases h with
      | inl h0 => exact absurd rfl h0
      | inr h1 => exact h1
    · exact Or.inr
  simp only [hc]
  have e1 : totalBitPerPin * i + (totalBitPerPin - 1 - 1) = 2 * i := by
    simp [totalBitPerPin, TOTAL_PARALLEL_PIN]
  have e0 : totalBitPerPin * i + (totalBitPerPin - 1 - 0) = 2 * i + 1 := by
    simp [totalBitPerPin, TOTAL_PARALLEL_PIN]
  rw [e1, e0]
  simp [List.append_assoc]

/-- The buffer entry i of a read of m bytes is pdrByte for byte i. -/
lemma parallelDataReadBuf_getD (m : ℕ) (sample : ℕ → ℕ → Bool) (i : ℕ)
    (hi : i < m) :
    (parallelDataReadBuf m sample).getD i 0 = pdrByte sample i := by
  unfold parallelDataReadBuf
  rw [List.getD_eq_getElem?_getD, List.getElem?_map, List.getElem?_range hi]
  rfl

/-- C5: a read of m bytes over 4 data lines first switches the data lines to
input and runs AddressSetup in read mode, then performs the 2m unit reads
with a maintain-cycle between consecutive units and none after the last,
then EnableLowFinal; and within each result byte, the bit sampled on data
line p during the nibble of index nib - where the nibble indices 1, 0 count
down starting from the most significant, first-arriving nibble - is stored
at bit position p + 4 * nib (the nibble of index nib arrives (1 - nib)-th). -/
theorem parallelDataRead_protocol (isDataReg : Bool) (m : ℕ)
    (sample : ℕ → ℕ → Bool) (hm : m ≠ 0) :
    parallelDataRead isDataReg m sample =
      [BusEvent.modeSwitch true, BusEvent.comSetup isDataReg true] ++
        (List.intersperse [BusEvent.comMaintain true]
          ((List.range (2 * m)).map fun u => pdrUnit (sample u))).flatten ++
      [BusEvent.comStop] ∧
    ∀ i, i < m → ∀ p, p < 4 → ∀ nib, nib < 2 →
      ((parallelDataReadBuf m sample).getD i 0).testBit (p + 4 * nib) =
        sample (2 * i + (1 - nib)) p := by
  constructor
  · have hblocks : ∀ i,
        ((List.range totalBitPerPin).reverse.map fun bitIndex =>
          pdrUnit (sample (totalBitPerPin * i + (totalBitPerPin - 1 - bitIndex))) ++
            (if 0 ≠ bitIndex ∨ m - 1 ≠ i
             then [BusEvent.comMaintain true] else [])).flatten =
        (fun u => pdrUnit (sample u)) (2 * i) ++ [BusEvent.comMaintain true] ++
          (fun u => pdrUnit (sample u)) (2 * i + 1) ++
          (if m - 1 ≠ i then [BusEvent.comMaintain true] else []) := by
      intro i
      rw [read_block_eq]
    have hmain := flatten_two_unit_blocks (BusEvent.comMaintain true) m hm
      (fun u => pdrUnit (sample u))
      (fun i => ((List.range totalBitPerPin).reverse.map fun bitIndex =>
        pdrUnit (sample (totalBitPerPin * i + (totalBitPerPin - 1 - bitIndex))) ++
          (if 0 ≠ bitIndex ∨ m - 1 ≠ i
           then [BusEvent.comMaintain true] else [])).flatten)
      hblocks
    unfold parallelDataRead
    rw [hmain]
  · intro i hi p hp nib hnib
    rw [parallelDataReadBuf_getD m sample i hi, pdrByte_eq]
    interval_cases nib <;> interval_cases p
    · exact (pdrByteFun_testBit _ _ _ _ _ _ _ _).2.2.2.2.1
    · exact (pdrByteFun_testBit _ _ _ _ _ _ _ _).2.2.2.2.2.1
    · exact (pdrByteFun_testBit _ _ _ _ _ _ _ _).2.2.2.2.2.2.1
    · exact (pdrByteFun_testBit _ _ _ _ _ _ _ _).2.2.2.2.2.2.2
    · exact (pdrByteFun_testBit _ _ _ _ _ _ _ _).1
    · exact (pdrByteFun_testBit _ _ _ _ _ _ _ _).2.1
    · exact (pdrByteFun_testBit _ _ _ _ _ _ _ _).2.2.1
    · exact (pdrByteFun_testBit _ _ _ _ _ _ _ _).2.2.2.1

/-- Witness for C5 on a one-byte read with all data lines high: bit 0 + 4
of the result byte equals the level sampled during the first unit. -/
theorem parallelDataRead_protocol_witness :
    (1 : ℕ) ≠ 0 ∧
      ((parallelDataReadBuf 1 (fun _ _ => true)).getD 0 0).testBit (0 + 4 * 1) =
        (fun _ _ => true : ℕ → ℕ → Bool) (2 * 0 + (1 - 1)) 0 :=
  ⟨by decide,
    (parallelDataRead_protocol false 1 (fun _ _ => true) (by decide)).2
      0 (by decide) 0 (by decide) 1 (by decide)⟩
